import Mathlib

/-!
Verification of the `barriers` package (barrier errors that mask their
causal chain) against its specification.

The Go data model is shallowly embedded: Go `error` values are modelled by
the inductive type `GoError`.  External errors (not of the barrier kind)
are modelled as leaves or wrappers carrying their own message and their
own privacy-safe detail strings; the barrier kind `GoError.barrier`
mirrors the source struct `barrierError` with its cached message `msg`
and its hidden `maskedErr`.  A possibly-nil Go `error` is an
`Option GoError`.
-/

/-- Model of a Go `error` value.  `leaf` and `wrap` model arbitrary
external errors (a wrapper exposes one inner cause through `Unwrap`);
`barrier` models the source struct `barrierError` with fields `msg`
(cached message) and `maskedErr` (hidden cause chain). -/
inductive GoError : Type where
  | leaf (msg : String) (details : List String)
  | wrap (msg : String) (details : List String) (cause : GoError)
  | barrier (msg : String) (maskedErr : GoError)
deriving DecidableEq, Repr

/-- Modelled from the spec: the external primitive
`unwrapOnce(error) → error-or-null` returns the next inner cause of a
chain, or null at the end.  A `wrap` exposes its cause; a `leaf` exposes
nothing; the source type `barrierError` deliberately implements neither
`Cause()` nor `Unwrap()`, so the external primitive finds no cause on it. -/
def unwrapOnce : GoError → Option GoError
  | .wrap _ _ c => some c
  | _ => none

/-- The full causal chain visited by repeated `unwrapOnce`, starting at
(and including) the error itself, outermost first. -/
def unwrapChain : GoError → List GoError
  | .wrap m d c => .wrap m d c :: unwrapChain c
  | e => [e]

/-- `unwrapChain` is exactly the iteration of `unwrapOnce`. -/
theorem unwrapChain_eq_unwrapOnce (e : GoError) :
    unwrapChain e = e :: (match unwrapOnce e with
      | none => []
      | some c => unwrapChain c) := by
  cases e <;> rfl

theorem unwrapOnce_sizeOf {e c : GoError} (h : unwrapOnce e = some c) :
    sizeOf c < sizeOf e := by
  cases e with
  | leaf m d => simp [unwrapOnce] at h
  | barrier m me => simp [unwrapOnce] at h
  | wrap m d cause =>
    simp [unwrapOnce] at h
    subst h
    simp

theorem unwrapChain_sizeOf (e : GoError) :
    ∀ x ∈ unwrapChain e, sizeOf x ≤ sizeOf e := by
  induction e with
  | leaf m d => intro x hx; simp [unwrapChain] at hx; subst hx; exact le_refl _
  | barrier m me ihm => intro x hx; simp [unwrapChain] at hx; subst hx; exact le_refl _
  | wrap m d c ih =>
    intro x hx
    simp [unwrapChain] at hx
    rcases hx with h | h
    · subst h; exact le_refl _
    · have := ih x h
      simp
      omega

/-- Translation of the method `(e *barrierError) Error() string`: it
returns the cached message; for the external kinds this models the
error value's own rendered message. -/
def errMsg : GoError → String
  | .leaf m _ => m
  | .wrap m _ _ => m
  | .barrier m _ => m

mutual

/-- Modelled from the spec: the external primitive
`getSafeDetails(error) → ordered-sequence-of-string` returns this link's
own privacy-safe diagnostic strings.  For external kinds these are the
link's stored detail strings; for the barrier kind the external engine
dispatches to the source method `barrierError.SafeDetails` (the source
asserts `var _ errbase.SafeDetailer = (*barrierError)(nil)`), i.e. the
walk of the masked chain below. -/
def getSafeDetails : GoError → List String
  | .leaf _ d => d
  | .wrap _ d _ => d
  | .barrier _ me => safeDetailsAux me []
termination_by e => (sizeOf e, 0)
decreasing_by
  simp_wf
  apply Prod.Lex.left
  simp

/-- Translation of the loop in `barrierError.SafeDetails`:
`for err := e.maskedErr; err != nil; err = errbase.UnwrapOnce(err)`
with accumulator `details`, each step appending the link's own safe
details (`details = sd.Fill(details)`). -/
def safeDetailsAux (err : GoError) (details : List String) : List String :=
  let details2 := details ++ getSafeDetails err
  match h : unwrapOnce err with
  | none => details2
  | some next => safeDetailsAux next details2
termination_by (sizeOf err, 1)
decreasing_by
  · apply Prod.Lex.right
    omega
  · apply Prod.Lex.left
    exact unwrapOnce_sizeOf h

end

/-- Translation of the method `(e *barrierError) SafeDetails() []string`
applied to a barrier whose masked cause is `maskedErr`: the loop starts
with an empty `details` slice. -/
def barrierSafeDetails (maskedErr : GoError) : List String :=
  safeDetailsAux maskedErr []

/-- Modelled from the spec: `fmt.Sprintf` of the Go standard library
(external to this repository); the message is formatted eagerly at
construction time.  The exact formatting algorithm is outside the spec;
it is modelled as a deterministic total function of the format string
and the arguments. -/
def sprintf (format : String) (args : List String) : String :=
  format ++ String.join args

/-- Translation of `HandledWithMessage(err error, msg string) error`:
nil in, nil out; otherwise a new `barrierError` with the caller-supplied
message and `err` as the masked cause. -/
def HandledWithMessage : Option GoError → String → Option GoError
  | none, _ => none
  | some err, msg => some (.barrier msg err)

/-- Translation of `Handled(err error) error`: nil in, nil out;
otherwise `HandledWithMessage(err, err.Error())`. -/
def Handled : Option GoError → Option GoError
  | none => none
  | some err => HandledWithMessage (some err) (errMsg err)

/-- Translation of `HandledWithMessagef(err error, format string,
args ...interface) error`: nil in, nil out; otherwise a new
`barrierError` with the eagerly formatted message and `err` as the
masked cause. -/
def HandledWithMessagef (err : Option GoError) (format : String) (args : List String) :
    Option GoError :=
  match err with
  | none => none
  | some e => some (.barrier (sprintf format args) e)

/-- The masked cause stored in a barrier, if the value is of the
barrier kind (field access `e.maskedErr`). -/
def maskedOf : GoError → Option GoError
  | .barrier _ me => some me
  | _ => none

/-- Whether the concrete value is of the `barrierError` kind (what the
Go type assertion `err.(*barrierError)` checks). -/
def isBarrier : GoError → Bool
  | .barrier _ _ => true
  | _ => false

/-- Number of nested barrier levels at the head of the value. -/
def barrierDepth : GoError → Nat
  | .barrier _ me => barrierDepth me + 1
  | _ => 0

/-- Modelled from the spec: causal-matching predicate in the style of
`errors.Is`: it reports a match exactly when the target occurs somewhere
along the chain visited by repeated `unwrapOnce` from the start error. -/
def errIs (e target : GoError) : Bool :=
  decide (target ∈ unwrapChain e)

/-- Model of the wire form of an error produced by the external
causal-encoding engine (spec: `encodeError`): one envelope per link,
carrying the link's message, safe details, and the encoded inner cause
where present. -/
inductive Encoded : Type where
  | leafEnc (msg : String) (details : List String)
  | wrapEnc (msg : String) (details : List String) (cause : Encoded)
  | barrierEnc (msg : String) (details : List String) (cause : Encoded)
deriving DecidableEq, Repr

/-- Model of the dynamically-typed `proto.Message` payload handed to a
decoder: either the encoded-cause envelope this codec expects
(`*errbase.EncodedError` in the source), or a payload of some other
concrete shape. -/
inductive Payload : Type where
  | encodedErr (enc : Encoded)
  | otherPayload (tag : String)
deriving DecidableEq, Repr

/-- Modelled from the spec: the external causal-encoding engine
`encodeError(context, error) → opaque-cause-envelope`, which recursively
encodes an arbitrary error chain, dispatching by each link's registered
codec; on the barrier kind it dispatches to the registered
`encodeBarrier` of the source, whose envelope carries the cached
message, the barrier's safe details and the encoded masked cause. -/
def encodeError : GoError → Encoded
  | .leaf m d => .leafEnc m d
  | .wrap m d c => .wrapEnc m d (encodeError c)
  | .barrier m me => .barrierEnc m (barrierSafeDetails me) (encodeError me)

/-- Modelled from the spec: the external causal-decoding engine
`decodeError(context, opaque-cause-envelope) → error`, inverse of
`encodeError`; on the barrier envelope it dispatches to the registered
`decodeBarrier` of the source, which rebuilds the barrier from the
message and the decoded cause and ignores the transmitted details. -/
def decodeError : Encoded → GoError
  | .leafEnc m d => .leaf m d
  | .wrapEnc m d c => .wrap m d (decodeError c)
  | .barrierEnc m _ c => .barrier m (decodeError c)

/-- Translation of `encodeBarrier(ctx, err) (msg, details, payload)`:
the type assertion `err.(*barrierError)` panics (modelled as `none`) on
any other kind; otherwise the triple is the cached message, the result
of `e.SafeDetails()`, and the encoded masked cause
`errbase.EncodeError(ctx, e.maskedErr)`. -/
def encodeBarrier (err : GoError) : Option (String × List String × Payload) :=
  match err with
  | .barrier m me => some (m, barrierSafeDetails me, .encodedErr (encodeError me))
  | _ => none

/-- Translation of `decodeBarrier(ctx, msg, _ []string, payload)`: the
type assertion `payload.(*errbase.EncodedError)` panics (modelled as
`none`) on a payload of any other shape; otherwise a new `barrierError`
with the given message and the decoded cause
`errbase.DecodeError(ctx, *enc)`.  The details argument is unused. -/
def decodeBarrier (msg : String) (_ : List String) (payload : Payload) : Option GoError :=
  match payload with
  | .encodedErr enc => some (.barrier msg (decodeError enc))
  | .otherPayload _ => none

/-- Whether a payload has the encoded-cause envelope shape this codec
expects. -/
def isEncodedPayload : Payload → Bool
  | .encodedErr _ => true
  | .otherPayload _ => false

/-- State of the external printer driving `FormatError`: the text
emitted so far and whether the caller requested detailed (verbose)
rendering. -/
structure Printer where
  buf : String
  detailMode : Bool
deriving DecidableEq, Repr

/-- `p.Print(s)` / `p.Printf(...)`: append text to the printer. -/
def Printer.print (p : Printer) (s : String) : Printer :=
  ⟨p.buf ++ s, p.detailMode⟩

/-- Modelled from the spec: the external verbose rendering of an error
chain, as the formatting engine would render it with a verbose format
request: every link's message and detail fields and every nested cause.
On the barrier kind the engine runs the source `FormatError` in detail
mode, printing the message, the fixed label, and recursively the masked
cause. -/
def verboseRender : GoError → String
  | .leaf m d => m ++ String.join (d.map (fun s => "\n" ++ s))
  | .wrap m d c => m ++ String.join (d.map (fun s => "\n" ++ s)) ++ "\n" ++ verboseRender c
  | .barrier m me => m ++ "\noriginal cause behind barrier:\n" ++ verboseRender me

/-- Translation of `(e *barrierError) FormatError(p errbase.Printer)
(next error)` for the barrier with message `msg` and masked cause
`maskedErr`: print the message; if the printer is in detail mode, print
the fixed label and the verbose rendering of the masked cause
(`p.Printf("\noriginal cause behind barrier:\n%+v", e.maskedErr)`);
return nil as the next error. -/
def barrierFormatError (msg : String) (maskedErr : GoError) (p : Printer) :
    Printer × Option GoError :=
  let p1 := p.print msg
  let p2 := if p1.detailMode then
      p1.print ("\noriginal cause behind barrier:\n" ++ verboseRender maskedErr)
    else p1
  (p2, none)

/-! Helper lemmas shared by the claim theorems. -/

theorem Handled_some (e : GoError) :
    Handled (some e) = some (GoError.barrier (errMsg e) e) := rfl

theorem decode_encode (e : GoError) : decodeError (encodeError e) = e := by
  induction e <;> simp [encodeError, decodeError, *]

theorem barrier_ne (m : String) (e : GoError) : GoError.barrier m e ≠ e := by
  intro h
  have hs : sizeOf (GoError.barrier m e) = sizeOf e := by rw [h]
  simp at hs

theorem safeDetailsAux_spec (e : GoError) :
    ∀ acc, safeDetailsAux e acc = acc ++ ((unwrapChain e).map getSafeDetails).flatten := by
  induction e with
  | leaf m d =>
    intro acc
    simp [safeDetailsAux, unwrapOnce, unwrapChain]
  | barrier m me ih =>
    intro acc
    simp [safeDetailsAux, unwrapOnce, unwrapChain]
  | wrap m d c ih =>
    intro acc
    rw [safeDetailsAux]
    simp [unwrapOnce, unwrapChain, getSafeDetails, ih]

/-! Claim theorems. -/

/-- Claim C1 (masking invariant): for every non-nil error `e`, the
barrier returned by `Handled` (or `HandledWithMessage` /
`HandledWithMessagef`) exposes no cause through the standard
cause-unwrapping traversal: `unwrapOnce` finds nothing on it, the
traversal chain consists of the barrier alone, the `Is`-style causal
match never reaches `e` or any error inside `e`'s chain, and the
formatting hook reports no next cause.  The barrier behaves as a leaf
with no discoverable cause. -/
theorem barrier_masking (e b t : GoError) (m fmtStr : String) (args : List String) (p : Printer)
    (h : Handled (some e) = some b ∨ HandledWithMessage (some e) m = some b ∨
      HandledWithMessagef (some e) fmtStr args = some b)
    (ht : t ∈ unwrapChain e) :
    unwrapChain b = [b] ∧ unwrapOnce b = none ∧ errIs b t = false ∧
      (barrierFormatError (errMsg b) e p).2 = none := by
  have hb : ∃ M, b = GoError.barrier M e := by
    rcases h with h | h | h
    · exact ⟨errMsg e, (Option.some.inj h).symm⟩
    · exact ⟨m, (Option.some.inj h).symm⟩
    · exact ⟨sprintf fmtStr args, (Option.some.inj h).symm⟩
  obtain ⟨M, rfl⟩ := hb
  have hle := unwrapChain_sizeOf e t ht
  refine ⟨by simp [unwrapChain], by simp [unwrapOnce], ?_, by simp [barrierFormatError]⟩
  simp only [errIs, unwrapChain, List.mem_singleton, decide_eq_false_iff_not]
  intro hEq
  rw [hEq] at hle
  simp at hle

/-- Witness for C1 at a concrete input: a leaf error with message
"boom", masked via `Handled`. -/
theorem barrier_masking_witness :
    (Handled (some (GoError.leaf "boom" ["d"])) =
        some (GoError.barrier "boom" (GoError.leaf "boom" ["d"])) ∨
      HandledWithMessage (some (GoError.leaf "boom" ["d"])) "other" =
        some (GoError.barrier "boom" (GoError.leaf "boom" ["d"])) ∨
      HandledWithMessagef (some (GoError.leaf "boom" ["d"])) "other" [] =
        some (GoError.barrier "boom" (GoError.leaf "boom" ["d"]))) ∧
    GoError.leaf "boom" ["d"] ∈ unwrapChain (GoError.leaf "boom" ["d"]) ∧
    (unwrapChain (GoError.barrier "boom" (GoError.leaf "boom" ["d"])) =
        [GoError.barrier "boom" (GoError.leaf "boom" ["d"])] ∧
      unwrapOnce (GoError.barrier "boom" (GoError.leaf "boom" ["d"])) = none ∧
      errIs (GoError.barrier "boom" (GoError.leaf "boom" ["d"]))
        (GoError.leaf "boom" ["d"]) = false ∧
      (barrierFormatError (errMsg (GoError.barrier "boom" (GoError.leaf "boom" ["d"])))
        (GoError.leaf "boom" ["d"]) (Printer.mk "" true)).2 = none) :=
  ⟨Or.inl rfl, by simp [unwrapChain],
    barrier_masking (GoError.leaf "boom" ["d"])
      (GoError.barrier "boom" (GoError.leaf "boom" ["d"]))
      (GoError.leaf "boom" ["d"]) "other" "other" [] (Printer.mk "" true)
      (Or.inl rfl) (by simp [unwrapChain])⟩

/-- Claim C2 (round-trip): for every non-nil error `e`, decoding the
envelope produced by encoding the barrier `Handled(e)` yields a barrier
whose message is identical to `Handled(e)`'s message and whose masked
cause is the external causal decoding of the external causal encoding
of `e`; in this model the external codec round-trips exactly, so the
reconstructed cause is causally equivalent to `e`. -/
theorem barrier_roundtrip (e b : GoError) (h : Handled (some e) = some b) :
    decodeError (encodeError b) = GoError.barrier (errMsg b) (decodeError (encodeError e)) ∧
    errMsg (decodeError (encodeError b)) = errMsg b ∧
    decodeError (encodeError e) = e := by
  have hb : b = GoError.barrier (errMsg e) e := (Option.some.inj h).symm
  subst hb
  exact ⟨by simp [encodeError, decodeError, errMsg], by simp [encodeError, decodeError, errMsg],
    decode_encode e⟩

/-- Witness for C2 at a concrete input: a two-link chain wrapped by a
barrier. -/
theorem barrier_roundtrip_witness :
    Handled (some (GoError.wrap "w" ["a"] (GoError.leaf "l" ["b"]))) =
      some (GoError.barrier "w" (GoError.wrap "w" ["a"] (GoError.leaf "l" ["b"]))) ∧
    (decodeError (encodeError (GoError.barrier "w"
        (GoError.wrap "w" ["a"] (GoError.leaf "l" ["b"])))) =
      GoError.barrier
        (errMsg (GoError.barrier "w" (GoError.wrap "w" ["a"] (GoError.leaf "l" ["b"]))))
        (decodeError (encodeError (GoError.wrap "w" ["a"] (GoError.leaf "l" ["b"])))) ∧
    errMsg (decodeError (encodeError (GoError.barrier "w"
        (GoError.wrap "w" ["a"] (GoError.leaf "l" ["b"]))))) =
      errMsg (GoError.barrier "w" (GoError.wrap "w" ["a"] (GoError.leaf "l" ["b"]))) ∧
    decodeError (encodeError (GoError.wrap "w" ["a"] (GoError.leaf "l" ["b"]))) =
      GoError.wrap "w" ["a"] (GoError.leaf "l" ["b"])) :=
  ⟨rfl, barrier_roundtrip (GoError.wrap "w" ["a"] (GoError.leaf "l" ["b"]))
    (GoError.barrier "w" (GoError.wrap "w" ["a"] (GoError.leaf "l" ["b"]))) rfl⟩

/-- Claim C3 (safe-detail extraction): for every barrier with a
non-nil masked cause of arbitrary chain depth, `SafeDetails` equals the
ordered concatenation, outermost link first, of each chain link's own
safe-detail strings; links contributing no safe details add nothing
(flattening drops empty batches), the operation is total, and a chain
in which no link reports details yields the empty list. -/
theorem safeDetails_concat (maskedErr : GoError) :
    barrierSafeDetails maskedErr = ((unwrapChain maskedErr).map getSafeDetails).flatten := by
  simpa [barrierSafeDetails] using safeDetailsAux_spec maskedErr []

/-- Claim C4 (encoder contract): `encodeBarrier` on a value of the
barrier kind returns the triple of the cached message, the barrier's
`SafeDetails` result, and the external causal encoding of the masked
cause; on a value of any other kind the type assertion fails (a fatal
contract violation, modelled as `none`), never a recoverable error. -/
theorem encodeBarrier_contract (err : GoError) :
    encodeBarrier err = (match maskedOf err with
      | some me => some (errMsg err, barrierSafeDetails me, Payload.encodedErr (encodeError me))
      | none => none) := by
  cases err <;> rfl

/-- Claim C5 (decoder contract): `decodeBarrier` on a payload of the
encoded-cause envelope shape returns a new barrier whose message is
exactly the given message and whose masked cause is the external causal
decoding of the payload; on a payload of any other shape the type
assertion fails (a fatal contract violation, modelled as `none`); the
safe-details argument is ignored: any two values of it give identical
results. -/
theorem decodeBarrier_contract (msg : String) (d1 d2 : List String) (payload : Payload) :
    decodeBarrier msg d1 payload = (match payload with
      | .encodedErr enc => some (GoError.barrier msg (decodeError enc))
      | .otherPayload _ => none) ∧
    decodeBarrier msg d1 payload = decodeBarrier msg d2 payload := by
  cases payload <;> exact ⟨rfl, rfl⟩

/-- Claim C6 (two-level rendering): compact formatting of a barrier
prints exactly the cached message and nothing else (no marker that a
hidden cause exists), and detailed formatting prints the message, the
fixed label "original cause behind barrier:", and the recursive verbose
rendering of the masked cause chain; the operation is a pure function
of the printer state and mutates nothing. -/
theorem barrier_format_two_level (msg : String) (maskedErr : GoError) :
    (barrierFormatError msg maskedErr (Printer.mk "" false)).1.buf = msg ∧
    (barrierFormatError msg maskedErr (Printer.mk "" true)).1.buf =
      msg ++ "\noriginal cause behind barrier:\n" ++ verboseRender maskedErr := by
  exact ⟨by simp [barrierFormatError, Printer.print],
    by simp [barrierFormatError, Printer.print, String.append_assoc]⟩

/-- Claim C7 (null propagation): all three construction functions are
total and, given a nil error input, deterministically return nil, for
every message, format string and argument list. -/
theorem null_propagation (m fmtStr : String) (args : List String) :
    Handled none = none ∧ HandledWithMessage none m = none ∧
    HandledWithMessagef none fmtStr args = none :=
  ⟨rfl, rfl, rfl⟩

/-- Claim C8 (message preservation): for every non-nil error `e`,
`Handled(e)` is non-nil (it is `some` of a barrier), its message equals
`e`'s own rendered message, and its masked cause is `e` itself. -/
theorem handled_message_preserved (e : GoError) :
    Handled (some e) = some (GoError.barrier (errMsg e) e) ∧
    errMsg (GoError.barrier (errMsg e) e) = errMsg e ∧
    maskedOf (GoError.barrier (errMsg e) e) = some e :=
  ⟨rfl, rfl, rfl⟩

/-- Claim C9 (message override): for every non-nil error `e` and every
message `m`, `HandledWithMessage(e, m)` is non-nil, its message equals
exactly `m` independent of `e`'s own message text, and its masked cause
is `e`. -/
theorem handledWithMessage_override (e : GoError) (m : String) :
    HandledWithMessage (some e) m = some (GoError.barrier m e) ∧
    errMsg (GoError.barrier m e) = m ∧
    maskedOf (GoError.barrier m e) = some e :=
  ⟨rfl, rfl, rfl⟩

/-- Claim C10 (barriers are not collapsed): for every non-nil error
`e`, applying `Handled` to an existing barrier produces a new, distinct
barrier whose masked cause is the existing barrier (re-wrapping, never
pass-through), whose message equals the existing barrier's message, and
whose barrier-nesting depth is one greater. -/
theorem handled_not_collapsed (e b b2 : GoError)
    (h1 : Handled (some e) = some b) (h2 : Handled (some b) = some b2) :
    b2 ≠ b ∧ maskedOf b2 = some b ∧ errMsg b2 = errMsg b ∧
    barrierDepth b2 = barrierDepth b + 1 := by
  have hb : b = GoError.barrier (errMsg e) e := (Option.some.inj h1).symm
  have hb2 : b2 = GoError.barrier (errMsg b) b := (Option.some.inj h2).symm
  subst hb2
  exact ⟨barrier_ne (errMsg b) b, rfl, rfl, rfl⟩

/-- Witness for C10 at a concrete input: a leaf error masked twice. -/
theorem handled_not_collapsed_witness :
    Handled (some (GoError.leaf "x" [])) = some (GoError.barrier "x" (GoError.leaf "x" [])) ∧
    Handled (some (GoError.barrier "x" (GoError.leaf "x" []))) =
      some (GoError.barrier "x" (GoError.barrier "x" (GoError.leaf "x" []))) ∧
    (GoError.barrier "x" (GoError.barrier "x" (GoError.leaf "x" [])) ≠
        GoError.barrier "x" (GoError.leaf "x" []) ∧
      maskedOf (GoError.barrier "x" (GoError.barrier "x" (GoError.leaf "x" []))) =
        some (GoError.barrier "x" (GoError.leaf "x" [])) ∧
      errMsg (GoError.barrier "x" (GoError.barrier "x" (GoError.leaf "x" []))) =
        errMsg (GoError.barrier "x" (GoError.leaf "x" [])) ∧
      barrierDepth (GoError.barrier "x" (GoError.barrier "x" (GoError.leaf "x" []))) =
        barrierDepth (GoError.barrier "x" (GoError.leaf "x" [])) + 1) :=
  ⟨rfl, rfl, handled_not_collapsed (GoError.leaf "x" [])
    (GoError.barrier "x" (GoError.leaf "x" []))
    (GoError.barrier "x" (GoError.barrier "x" (GoError.leaf "x" []))) rfl rfl⟩
